import Mathlib

/-!
Verification of the relation query compiler of kysely-relations
(src/mysql/relations-builder): a declarative relation-definition layer
that compiles hasOne / hasOneNotNull / hasMany / hasManyThrough relation
descriptors into correlated, JSON-aggregated sub-query expressions.

The embedding models the query-builder values the source manipulates as an
expression tree (`SelectQuery`, `Expr`, `AggExpr`, `AliasedExpr`), translates
the six source functions (`createRelationsBuilder`, `hasOne`, `hasOneNotNull`,
`hasMany`, `hasManyThrough`, `relationQueryFactory`,
`throughRelationQueryFactory`) directly from the source, and gives an
evaluation semantics (`evalQuery`, `evalAggExpr`) over a concrete database
for the claims about produced values.
-/

namespace KyselyRelations

/-- A SQL value: integer, string, or NULL. -/
inductive Value where
  | intV (n : Int)
  | strV (s : String)
  | nullV
deriving DecidableEq, Repr

/-- A row: an association list from qualified column names to values. -/
abbrev Row := List (String × Value)

/-- An opaque scalar expression node, as produced by `sql.ref` (a reference
to a named column, resolved lazily against the enclosing row) or a literal. -/
inductive Expr where
  | ref (column : String)
  | lit (v : Value)
deriving DecidableEq, Repr

/-- The select-query builder value, one constructor per builder call the
source performs: `expressionBuilder().selectFrom(t)`, `.where(c, "=", e)`,
`.where(c, "in", sub)`, `.select(c)`, and `.selectAll()`. -/
inductive SelectQuery where
  | selectFrom (table : String)
  | whereEq (q : SelectQuery) (column : String) (e : Expr)
  | whereIn (q : SelectQuery) (column : String) (sub : SelectQuery)
  | selectCol (q : SelectQuery) (column : String)
  | selectAll (q : SelectQuery)
deriving DecidableEq, Repr

/-- A JSON-aggregation of a correlated sub-query: `jsonObjectFrom` collapses
it to a single object (null when empty), `jsonArrayFrom` to an array. -/
inductive AggExpr where
  | jsonObjectFrom (q : SelectQuery)
  | jsonArrayFrom (q : SelectQuery)
deriving DecidableEq, Repr

/-- The result of `.as(name)`: an aggregate expression with an output alias. -/
structure AliasedExpr where
  expr : AggExpr
  asName : String
deriving DecidableEq, Repr

/-- The expression-building context `eb` bound to the parent query. The
source never calls a method on it; it only passes it around, so the model
carries just enough structure to distinguish contexts. -/
structure ExpressionBuilder where
  parentTable : String
deriving DecidableEq, Repr

/-- `sql.ref(column)`: an opaque reference expression to a named column. -/
def sqlRef (column : String) : Expr := Expr.ref column

/-- Relation configuration: target table and the correlating column pair. -/
structure RelationConfig where
  target : String
  column : String
  reference : String
deriving DecidableEq, Repr

/-- Through-relation configuration: adds the junction hop. -/
structure ThroughRelationConfig extends RelationConfig where
  through : String
  throughColumn : String
  throughReference : String
deriving DecidableEq, Repr

/-- `CustomizeQueryFunction`: an optional predicate narrowing the base query. -/
abbrev CustomizeQueryFunction := SelectQuery → SelectQuery

/-- `SelectFunction` (the column selector): maps the base query over the
target shape to a projection. -/
abbrev SelectFunction := SelectQuery → SelectQuery

/-- `AliasedExpressionFactory` (the CompiledRelation): a function from the
expression-building context to the aliased aggregate expression. -/
abbrev AliasedExpressionFactory := ExpressionBuilder → AliasedExpr

/-- Translation of `relationQueryFactory(config, customizeQuery)`:
`customizeQuery = customizeQuery ?? (v => v)`;
`baseQuery = customizeQuery(expressionBuilder().selectFrom(config.target))`;
returns `(expression) => baseQuery.where(config.reference, "=", expression)`. -/
def relationQueryFactory (config : RelationConfig)
    (customizeQuery : Option CustomizeQueryFunction) : Expr → SelectQuery :=
  let cz := customizeQuery.getD (fun v => v)
  let baseQuery := cz (SelectQuery.selectFrom config.target)
  fun expression => SelectQuery.whereEq baseQuery config.reference expression

/-- Translation of `throughRelationQueryFactory(config, customizeQuery)`:
as the simple factory, plus
`baseSubQuery = expressionBuilder().selectFrom(config.through).select(config.throughReference)`;
returns `(expression) => baseQuery.where(config.reference, "in",
() => baseSubQuery.where(config.throughColumn, "=", expression))`. -/
def throughRelationQueryFactory (config : ThroughRelationConfig)
    (customizeQuery : Option CustomizeQueryFunction) : Expr → SelectQuery :=
  let cz := customizeQuery.getD (fun v => v)
  let baseQuery := cz (SelectQuery.selectFrom config.target)
  let baseSubQuery :=
    SelectQuery.selectCol (SelectQuery.selectFrom config.through) config.throughReference
  fun expression =>
    SelectQuery.whereIn baseQuery config.reference
      (SelectQuery.whereEq baseSubQuery config.throughColumn expression)

/-- Translation of `hasOne(relationName, config, customizeQuery)`:
builds `query = relationQueryFactory(config, customizeQuery)`,
`queryWithColumn = query(sql.ref(config.column))`, and returns
`(selectFunc) => () => jsonObjectFrom(selectFunc(queryWithColumn)).as(relationName)`
(the inner closure ignores its context argument). -/
def hasOne (relationName : String) (config : RelationConfig)
    (customizeQuery : Option CustomizeQueryFunction) :
    SelectFunction → AliasedExpressionFactory :=
  let query := relationQueryFactory config customizeQuery
  let queryWithColumn := query (sqlRef config.column)
  fun selectFunc => fun _eb =>
    AliasedExpr.mk (AggExpr.jsonObjectFrom (selectFunc queryWithColumn)) relationName

/-- Translation of `hasOneNotNull(relationName, config, customizeQuery)`:
the body is textually identical to `hasOne`. -/
def hasOneNotNull (relationName : String) (config : RelationConfig)
    (customizeQuery : Option CustomizeQueryFunction) :
    SelectFunction → AliasedExpressionFactory :=
  let query := relationQueryFactory config customizeQuery
  let queryWithColumn := query (sqlRef config.column)
  fun selectFunc => fun _eb =>
    AliasedExpr.mk (AggExpr.jsonObjectFrom (selectFunc queryWithColumn)) relationName

/-- Translation of `hasMany(relationName, config, configureQuery)`:
as `hasOne` but wrapping with `jsonArrayFrom`. -/
def hasMany (relationName : String) (config : RelationConfig)
    (configureQuery : Option CustomizeQueryFunction) :
    SelectFunction → AliasedExpressionFactory :=
  let query := relationQueryFactory config configureQuery
  let queryWithColumn := query (sqlRef config.column)
  fun selectFunc => fun _eb =>
    AliasedExpr.mk (AggExpr.jsonArrayFrom (selectFunc queryWithColumn)) relationName

/-- Translation of `hasManyThrough(relationName, config, configureQuery)`:
uses `throughRelationQueryFactory` and wraps with `jsonArrayFrom`. -/
def hasManyThrough (relationName : String) (config : ThroughRelationConfig)
    (configureQuery : Option CustomizeQueryFunction) :
    SelectFunction → AliasedExpressionFactory :=
  let query := throughRelationQueryFactory config configureQuery
  let queryWithColumn := query (sqlRef config.column)
  fun selectFunc => fun _eb =>
    AliasedExpr.mk (AggExpr.jsonArrayFrom (selectFunc queryWithColumn)) relationName

/-- The record of relation constructors handed to the caller's declaration
function by `createRelationsBuilder`. -/
structure RelationFunctions where
  hasOne : String → RelationConfig → Option CustomizeQueryFunction →
    SelectFunction → AliasedExpressionFactory
  hasOneNotNull : String → RelationConfig → Option CustomizeQueryFunction →
    SelectFunction → AliasedExpressionFactory
  hasMany : String → RelationConfig → Option CustomizeQueryFunction →
    SelectFunction → AliasedExpressionFactory
  hasManyThrough : String → ThroughRelationConfig → Option CustomizeQueryFunction →
    SelectFunction → AliasedExpressionFactory

/-- Translation of `createRelationsBuilder()`: returns
`relations(table, relationBuilder) =
relationBuilder({ hasOne, hasOneNotNull, hasMany, hasManyThrough })`. -/
def createRelationsBuilder {T : Type} (_u : Unit) (_table : String)
    (relationBuilder : RelationFunctions → T) : T :=
  relationBuilder ⟨hasOne, hasOneNotNull, hasMany, hasManyThrough⟩

/-! ### Evaluation semantics

A database maps table names to their rows in insertion order; evaluation of
a query under a scope (the enclosing rows' bindings) yields the result rows
in order. SQL equality is false whenever either side is NULL. -/

/-- SQL equality of values: any comparison with NULL is not true. -/
def sqlEq : Value → Value → Bool
  | Value.nullV, _ => false
  | _, Value.nullV => false
  | Value.intV a, Value.intV b => a == b
  | Value.strV a, Value.strV b => a == b
  | _, _ => false

/-- Look a qualified column up in a scope (first binding wins). -/
def lookupCol (scope : Row) (column : String) : Option Value :=
  (scope.find? (fun p => p.1 == column)).map (fun p => p.2)

/-- The value of the first (single selected) column of a row. -/
def firstVal (row : Row) : Option Value :=
  row.head?.map (fun p => p.2)

/-- Evaluate an expression under a scope. -/
def evalExpr (scope : Row) : Expr → Option Value
  | Expr.ref c => lookupCol scope c
  | Expr.lit v => some v

/-- Evaluate a query against a database under an environment of outer-row
bindings; candidate rows shadow the environment, and a nested `IN` sub-query
sees the candidate row of its enclosing query in scope. -/
def evalQuery (db : String → List Row) : Row → SelectQuery → List Row
  | _env, SelectQuery.selectFrom t => db t
  | env, SelectQuery.whereEq q c e =>
      (evalQuery db env q).filter (fun row =>
        match lookupCol (row ++ env) c, evalExpr (row ++ env) e with
        | some v, some w => sqlEq v w
        | _, _ => false)
  | env, SelectQuery.whereIn q c sub =>
      (evalQuery db env q).filter (fun row =>
        match lookupCol (row ++ env) c with
        | some v =>
            (evalQuery db (row ++ env) sub).any (fun r =>
              match firstVal r with
              | some w => sqlEq v w
              | none => false)
        | none => false)
  | env, SelectQuery.selectCol q c =>
      (evalQuery db env q).map (fun row => [(c, (lookupCol row c).getD Value.nullV)])
  | env, SelectQuery.selectAll q => evalQuery db env q

/-- A produced JSON value: null, a single object, or an array of objects. -/
inductive Json where
  | nullJ
  | obj (row : Row)
  | arr (rows : List Row)
deriving DecidableEq, Repr

/-- Semantics of the host JSON-aggregation helpers: `jsonObjectFrom` yields
null when the sub-query has no rows and the first row's object otherwise;
`jsonArrayFrom` yields the array of all result rows (empty when none). -/
def evalAggExpr (db : String → List Row) (env : Row) : AggExpr → Json
  | AggExpr.jsonObjectFrom q =>
      match evalQuery db env q with
      | [] => Json.nullJ
      | r :: _ => Json.obj r
  | AggExpr.jsonArrayFrom q => Json.arr (evalQuery db env q)

/-- Evaluate an aliased aggregate expression to its named JSON value. -/
def evalAliasedExpr (db : String → List Row) (env : Row) (a : AliasedExpr) :
    String × Json :=
  (a.asName, evalAggExpr db env a.expr)

/-! ### Spec-side recipes

Definitions written from the specification's words, to be compared with the
translations from the source. -/

/-- Spec recipe for `resolveSimple(config, customize)`: build the
uncorrelated base query as SELECT FROM config.target, apply customize if
present (identity otherwise), and return
correlate(expr) = baseQuery WHERE config.reference = expr. -/
def resolveSimpleSpec (config : RelationConfig)
    (customize : Option CustomizeQueryFunction) : Expr → SelectQuery :=
  let base := SelectQuery.selectFrom config.target
  let customized :=
    match customize with
    | some f => f base
    | none => base
  fun expr => SelectQuery.whereEq customized config.reference expr

/-- Spec recipe for `resolveThrough(config, customize)`: build the target
base query with customize applied exactly as in the simple case, and
independently the junction sub-query SELECT config.throughReference FROM
config.through; return correlate(expr) = baseQuery WHERE config.reference IN
(junctionQuery WHERE config.throughColumn = expr). -/
def resolveThroughSpec (config : ThroughRelationConfig)
    (customize : Option CustomizeQueryFunction) : Expr → SelectQuery :=
  let base := SelectQuery.selectFrom config.target
  let customized :=
    match customize with
    | some f => f base
    | none => base
  let junction :=
    SelectQuery.selectCol (SelectQuery.selectFrom config.through) config.throughReference
  fun expr =>
    SelectQuery.whereIn customized config.reference
      (SelectQuery.whereEq junction config.throughColumn expr)

/-- Spec recipe for a fresh `hasOne` invocation: at invocation time, derive
the correlation expression as a reference to config.column, rebuild the
customized base, correlate, select, aggregate into an object, and alias. -/
def freshInvokeHasOne (relationName : String) (config : RelationConfig)
    (customizeQuery : Option CustomizeQueryFunction) (selectFunc : SelectFunction)
    (_eb : ExpressionBuilder) : AliasedExpr :=
  let correlation := Expr.ref config.column
  let base :=
    match customizeQuery with
    | some f => f (SelectQuery.selectFrom config.target)
    | none => SelectQuery.selectFrom config.target
  let correlated := SelectQuery.whereEq base config.reference correlation
  AliasedExpr.mk (AggExpr.jsonObjectFrom (selectFunc correlated)) relationName

/-- Spec recipe for a fresh `hasOneNotNull` invocation (identical shape to
the `hasOne` recipe). -/
def freshInvokeHasOneNotNull (relationName : String) (config : RelationConfig)
    (customizeQuery : Option CustomizeQueryFunction) (selectFunc : SelectFunction)
    (_eb : ExpressionBuilder) : AliasedExpr :=
  let correlation := Expr.ref config.column
  let base :=
    match customizeQuery with
    | some f => f (SelectQuery.selectFrom config.target)
    | none => SelectQuery.selectFrom config.target
  let correlated := SelectQuery.whereEq base config.reference correlation
  AliasedExpr.mk (AggExpr.jsonObjectFrom (selectFunc correlated)) relationName

/-- Spec recipe for a fresh `hasMany` invocation: as the `hasOne` recipe but
aggregating into an array. -/
def freshInvokeHasMany (relationName : String) (config : RelationConfig)
    (configureQuery : Option CustomizeQueryFunction) (selectFunc : SelectFunction)
    (_eb : ExpressionBuilder) : AliasedExpr :=
  let correlation := Expr.ref config.column
  let base :=
    match configureQuery with
    | some f => f (SelectQuery.selectFrom config.target)
    | none => SelectQuery.selectFrom config.target
  let correlated := SelectQuery.whereEq base config.reference correlation
  AliasedExpr.mk (AggExpr.jsonArrayFrom (selectFunc correlated)) relationName

/-- Spec recipe for a fresh `hasManyThrough` invocation: at invocation time,
derive the correlation reference, rebuild the customized target base and the
junction sub-query, correlate through the IN membership test, select,
aggregate into an array, and alias. -/
def freshInvokeHasManyThrough (relationName : String) (config : ThroughRelationConfig)
    (configureQuery : Option CustomizeQueryFunction) (selectFunc : SelectFunction)
    (_eb : ExpressionBuilder) : AliasedExpr :=
  let correlation := Expr.ref config.column
  let base :=
    match configureQuery with
    | some f => f (SelectQuery.selectFrom config.target)
    | none => SelectQuery.selectFrom config.target
  let junction :=
    SelectQuery.selectCol (SelectQuery.selectFrom config.through) config.throughReference
  let correlated :=
    SelectQuery.whereIn base config.reference
      (SelectQuery.whereEq junction config.throughColumn correlation)
  AliasedExpr.mk (AggExpr.jsonArrayFrom (selectFunc correlated)) relationName

/-- Replace the expression of the outermost equality filter of a query. -/
def mapTopWhereExpr (f : Expr → Expr) : SelectQuery → SelectQuery
  | SelectQuery.whereEq q c e => SelectQuery.whereEq q c (f e)
  | q => q

/-- The sub-query of an outermost IN membership filter, when there is one. -/
def inSubqueryOf : SelectQuery → Option SelectQuery
  | SelectQuery.whereIn _ _ sub => some sub
  | _ => none

/-- The filtered base of an outermost IN membership filter, when there is one. -/
def inBaseOf : SelectQuery → Option SelectQuery
  | SelectQuery.whereIn q _ _ => some q
  | _ => none

/-! ### Theorems -/

/-- Claim C1: for every RelationConfig and every optional CustomizePredicate,
the simple resolver builds the uncorrelated base query by selecting from
config.target, applies the customize predicate if supplied (identity
otherwise), and returns the function mapping expr to the base query filtered
by config.reference = expr: `relationQueryFactory` equals the spec recipe. -/
theorem spec_C1 (config : RelationConfig) (customize : Option CustomizeQueryFunction) :
    relationQueryFactory config customize = resolveSimpleSpec config customize := by
  cases customize <;> rfl

/-- Claim C2: for every ThroughRelationConfig and optional CustomizePredicate,
the through resolver builds the target base query (customize applied exactly
as in the simple case) and independently the junction sub-query selecting
only config.throughReference from config.through, and correlates via
config.reference IN (junction filtered by config.throughColumn = expr):
`throughRelationQueryFactory` equals the spec recipe. -/
theorem spec_C2 (config : ThroughRelationConfig)
    (customize : Option CustomizeQueryFunction) :
    throughRelationQueryFactory config customize = resolveThroughSpec config customize := by
  cases customize <;> rfl

/-- Claim C3: hasOne and hasOneNotNull use the simple resolver and wrap the
selector's result in single-row JSON object aggregation; hasMany uses the
simple resolver and hasManyThrough the through resolver, each wrapping the
selector's result in JSON array aggregation; in all four kinds the aggregate
is aliased to the caller-chosen relation name. -/
theorem spec_C3 (relationName : String) (config : RelationConfig)
    (tconfig : ThroughRelationConfig) (cz : Option CustomizeQueryFunction)
    (s : SelectFunction) (eb : ExpressionBuilder) :
    hasOne relationName config cz s eb
      = AliasedExpr.mk
          (AggExpr.jsonObjectFrom (s (relationQueryFactory config cz (sqlRef config.column))))
          relationName
    ∧ hasOneNotNull relationName config cz s eb
      = AliasedExpr.mk
          (AggExpr.jsonObjectFrom (s (relationQueryFactory config cz (sqlRef config.column))))
          relationName
    ∧ hasMany relationName config cz s eb
      = AliasedExpr.mk
          (AggExpr.jsonArrayFrom (s (relationQueryFactory config cz (sqlRef config.column))))
          relationName
    ∧ hasManyThrough relationName tconfig cz s eb
      = AliasedExpr.mk
          (AggExpr.jsonArrayFrom
            (s (throughRelationQueryFactory tconfig cz (sqlRef tconfig.column))))
          relationName :=
  ⟨rfl, rfl, rfl, rfl⟩

/-- Claim C4: under the evaluation semantics, a compiled HasOne or
HasOneNotNull relation produces exactly null when zero rows of the selected
correlated sub-query match and exactly the row's selected shape when one
matches; a compiled HasMany or HasManyThrough relation produces exactly the
array of the evaluated rows, so the empty array (never null) on zero
matches, and multiple matches keep the order of evaluation, which on the
raw correlated query is a sublist (order-preserving filter) of the target
table's natural row order. -/
theorem spec_C4 (relationName : String) (config : RelationConfig)
    (tconfig : ThroughRelationConfig) (cz : Option CustomizeQueryFunction)
    (s : SelectFunction) (db : String → List Row) (parent : Row)
    (eb : ExpressionBuilder) :
    (evalQuery db parent (s (relationQueryFactory config cz (sqlRef config.column))) = [] →
        evalAliasedExpr db parent (hasOne relationName config cz s eb)
          = (relationName, Json.nullJ)
        ∧ evalAliasedExpr db parent (hasOneNotNull relationName config cz s eb)
          = (relationName, Json.nullJ))
    ∧ (∀ r, evalQuery db parent (s (relationQueryFactory config cz (sqlRef config.column))) = [r] →
        evalAliasedExpr db parent (hasOne relationName config cz s eb)
          = (relationName, Json.obj r)
        ∧ evalAliasedExpr db parent (hasOneNotNull relationName config cz s eb)
          = (relationName, Json.obj r))
    ∧ evalAliasedExpr db parent (hasMany relationName config cz s eb)
        = (relationName,
            Json.arr (evalQuery db parent (s (relationQueryFactory config cz (sqlRef config.column)))))
    ∧ (evalQuery db parent (s (relationQueryFactory config cz (sqlRef config.column))) = [] →
        evalAliasedExpr db parent (hasMany relationName config cz s eb)
          = (relationName, Json.arr []))
    ∧ evalAliasedExpr db parent (hasManyThrough relationName tconfig cz s eb)
        = (relationName,
            Json.arr
              (evalQuery db parent
                (s (throughRelationQueryFactory tconfig cz (sqlRef tconfig.column)))))
    ∧ ∀ e, (evalQuery db parent
        (SelectQuery.whereEq (SelectQuery.selectFrom config.target) config.reference e)).Sublist
        (db config.target) := by
  refine ⟨?_, ?_, ?_, ?_, ?_, ?_⟩
  · intro h
    constructor <;> simp [hasOne, hasOneNotNull, evalAliasedExpr, evalAggExpr, h]
  · intro r h
    constructor <;> simp [hasOne, hasOneNotNull, evalAliasedExpr, evalAggExpr, h]
  · rfl
  · intro h
    simp [hasMany, evalAliasedExpr, evalAggExpr, h]
  · rfl
  · intro e
    simp only [evalQuery]
    exact List.filter_sublist _

/-- Witness for C4: with a database holding no profile and no post rows and
a parent user row with id 1, the compiled hasOne relation evaluates to
("profile", null) and the compiled hasMany relation to ("posts", []). -/
theorem spec_C4_witness :
    evalAliasedExpr (fun _ => []) [("users.id", Value.intV 1)]
      (hasOne "profile" ⟨"profiles", "users.id", "profiles.user_id"⟩ none
        (fun q => SelectQuery.selectAll q) ⟨"users"⟩)
      = ("profile", Json.nullJ)
    ∧ evalAliasedExpr (fun _ => []) [("users.id", Value.intV 1)]
      (hasMany "posts" ⟨"posts", "users.id", "posts.user_id"⟩ none
        (fun q => SelectQuery.selectAll q) ⟨"users"⟩)
      = ("posts", Json.arr []) := by
  constructor
  · exact ((spec_C4 "profile" ⟨"profiles", "users.id", "profiles.user_id"⟩
      ⟨⟨"tags", "posts.id", "tags.id"⟩, "post_tags", "post_tags.post_id", "post_tags.tag_id"⟩
      none (fun q => SelectQuery.selectAll q) (fun _ => [])
      [("users.id", Value.intV 1)] ⟨"users"⟩).1 (by decide)).1
  · exact (spec_C4 "posts" ⟨"posts", "users.id", "posts.user_id"⟩
      ⟨⟨"tags", "posts.id", "tags.id"⟩, "post_tags", "post_tags.post_id", "post_tags.tag_id"⟩
      none (fun q => SelectQuery.selectAll q) (fun _ => [])
      [("users.id", Value.intV 1)] ⟨"users"⟩).2.2.2.1 (by decide)

/-- Claim C5: every invocation of a compiled relation returns the aliased
aggregate obtained by rebuilding the whole sub-query tree fresh from the
configuration at invocation time (correlation reference to config.column,
customized base, correlation filter, selection, aggregation, alias), for
every expression-building context, with no dependence on earlier
invocations: the compiled relations equal the fresh per-invocation spec
recipes pointwise. -/
theorem spec_C5 (relationName : String) (config : RelationConfig)
    (tconfig : ThroughRelationConfig) (cz : Option CustomizeQueryFunction)
    (s : SelectFunction) (eb : ExpressionBuilder) :
    hasOne relationName config cz s eb = freshInvokeHasOne relationName config cz s eb
    ∧ hasOneNotNull relationName config cz s eb
      = freshInvokeHasOneNotNull relationName config cz s eb
    ∧ hasMany relationName config cz s eb = freshInvokeHasMany relationName config cz s eb
    ∧ hasManyThrough relationName tconfig cz s eb
      = freshInvokeHasManyThrough relationName tconfig cz s eb := by
  cases cz <;> exact ⟨rfl, rfl, rfl, rfl⟩

/-- Claim C6: the compiled relation produced by hasOneNotNull is identical
to the one produced by hasOne with the same arguments (the two definitions
are equal as functions, so there is no runtime distinction), and under the
evaluation semantics hasOneNotNull also yields null on zero matches. -/
theorem spec_C6 :
    hasOneNotNull = hasOne
    ∧ ∀ (relationName : String) (config : RelationConfig)
        (cz : Option CustomizeQueryFunction) (s : SelectFunction)
        (eb : ExpressionBuilder) (db : String → List Row) (parent : Row),
        evalQuery db parent (s (relationQueryFactory config cz (sqlRef config.column))) = [] →
        evalAliasedExpr db parent (hasOneNotNull relationName config cz s eb)
          = (relationName, Json.nullJ) := by
  refine ⟨rfl, ?_⟩
  intro relationName config cz s eb db parent h
  simp [hasOneNotNull, evalAliasedExpr, evalAggExpr, h]

/-- Witness for C6: with an empty database, the compiled hasOneNotNull
relation evaluates to ("profile", null). -/
theorem spec_C6_witness :
    evalAliasedExpr (fun _ => []) [("users.id", Value.intV 1)]
      (hasOneNotNull "profile" ⟨"profiles", "users.id", "profiles.user_id"⟩ none
        (fun q => SelectQuery.selectAll q) ⟨"users"⟩)
      = ("profile", Json.nullJ) :=
  spec_C6.2 "profile" ⟨"profiles", "users.id", "profiles.user_id"⟩ none
    (fun q => SelectQuery.selectAll q) ⟨"users"⟩ (fun _ => [])
    [("users.id", Value.intV 1)] (by decide)

/-- Claim C7: the junction sub-query built by the through resolver is the
same whether or not a customize predicate is supplied; it is exactly the
junction table's single-column selection filtered by the correlation, and
the customize predicate reaches only the target-table base query (applied
once, before correlation). -/
theorem spec_C7 (config : ThroughRelationConfig)
    (cz : Option CustomizeQueryFunction) (expr : Expr) :
    inSubqueryOf (throughRelationQueryFactory config cz expr)
      = inSubqueryOf (throughRelationQueryFactory config none expr)
    ∧ inSubqueryOf (throughRelationQueryFactory config cz expr)
      = some (SelectQuery.whereEq
          (SelectQuery.selectCol (SelectQuery.selectFrom config.through)
            config.throughReference)
          config.throughColumn expr)
    ∧ inBaseOf (throughRelationQueryFactory config cz expr)
      = some ((cz.getD (fun v => v)) (SelectQuery.selectFrom config.target)) :=
  ⟨rfl, rfl, rfl⟩

/-- Claim C8: compiled relations are pure and deterministic: invoking the
same compiled relation with any two expression-building contexts (in
particular equivalent ones) yields structurally equal sub-query
expressions, for all four relation kinds; in this embedding compilation and
invocation are pure functions, so no mutable shared state exists. -/
theorem spec_C8 (relationName : String) (config : RelationConfig)
    (tconfig : ThroughRelationConfig) (cz : Option CustomizeQueryFunction)
    (s : SelectFunction) (eb₁ eb₂ : ExpressionBuilder) :
    hasOne relationName config cz s eb₁ = hasOne relationName config cz s eb₂
    ∧ hasOneNotNull relationName config cz s eb₁
      = hasOneNotNull relationName config cz s eb₂
    ∧ hasMany relationName config cz s eb₁ = hasMany relationName config cz s eb₂
    ∧ hasManyThrough relationName tconfig cz s eb₁
      = hasManyThrough relationName tconfig cz s eb₂ :=
  ⟨rfl, rfl, rfl, rfl⟩

/-- Claim C9: the correlation function returned by the simple resolver is
total (defined for every expression of the correct type, never failing) and
treats its expression argument as an opaque node: the result is exactly the
customized base query with the equality filter carrying expr verbatim, and
transforming the expression commutes with the factory. -/
theorem spec_C9 (config : RelationConfig) (cz : Option CustomizeQueryFunction)
    (e : Expr) (f : Expr → Expr) :
    relationQueryFactory config cz e
      = SelectQuery.whereEq ((cz.getD (fun v => v)) (SelectQuery.selectFrom config.target))
          config.reference e
    ∧ relationQueryFactory config cz (f e)
      = mapTopWhereExpr f (relationQueryFactory config cz e) :=
  ⟨rfl, rfl⟩

/-- Claim C10: the per-table relation-declaration entry point ignores its
table-name argument: for any two table names and any declaration function,
it returns exactly the declaration function applied to the record of the
four relation constructors. -/
theorem spec_C10 {T : Type} (t₁ t₂ : String) (f : RelationFunctions → T) :
    createRelationsBuilder () t₁ f
      = f ⟨hasOne, hasOneNotNull, hasMany, hasManyThrough⟩
    ∧ createRelationsBuilder () t₁ f = createRelationsBuilder () t₂ f :=
  ⟨rfl, rfl⟩

end KyselyRelations
